import Mathlib

/-!
Shallow embedding of `parametricSN/models/sn_top_models.py`.

The file models the "top" PyTorch modules of the repository: the layer
kinds they instantiate, the architecture each constructor assembles, the
shape semantics of a forward pass, and the order in which forward applies
its layers.  Machine tensors are abstracted to their shapes (a batch of
4-d activations or a batch of flat feature vectors); a layer application
that PyTorch would reject (channel mismatch, feature-count mismatch,
kernel larger than the padded input) is `none`.
-/

namespace SNTop

/-- The layer kinds used by `sn_top_models.py` (all from `torch.nn` /
`torchvision`): `Conv2d` (square kernel, equal stride and padding in both
directions, as in the source), `BatchNorm2d` with its affine flag,
`ReLU`, `MaxPool2d`, `AdaptiveAvgPool2d`, `Linear`, `Dropout`, and the
`x.view(x.size(0), -1)` / `x.reshape(x.shape[0], -1)` flattening step. -/
inductive SLayer where
  | conv2d (inC outC kernel stride padding : Nat)
  | batchNorm2d (channels : Nat) (affine : Bool)
  | relu
  | maxPool2d (kernel stride padding : Nat)
  | adaptiveAvgPool2d (outSize : Nat)
  | linear (inF outF : Nat)
  | dropout
  | flatten
deriving DecidableEq, Repr

/-- Shape of an activation tensor: `t4 n c h w` is a 4-d batch
(batch, channels, height, width); `t2 n f` is a flattened batch
(batch, features). -/
inductive TShape where
  | t4 (n c h w : Nat)
  | t2 (n f : Nat)
deriving DecidableEq, Repr

/-- The batch dimension of a shape. -/
def TShape.batch : TShape → Nat
  | .t4 n _ _ _ => n
  | .t2 n _ => n

/-- Output extent of one spatial dimension of `Conv2d`/`MaxPool2d`:
`(h + 2*padding - kernel) / stride + 1`, defined when the kernel fits in
the padded input and stride and kernel are positive. -/
def convOut (h kernel stride padding : Nat) : Option Nat :=
  if 1 ≤ stride ∧ 1 ≤ kernel ∧ kernel ≤ h + 2 * padding then
    some ((h + 2 * padding - kernel) / stride + 1)
  else
    none

/-- Shape semantics of a single layer, `none` when PyTorch would raise:
convolutions and batch norms demand a 4-d input with the declared channel
count, `Linear` acts on the last dimension and demands `inF` features. -/
def applySLayer : SLayer → TShape → Option TShape
  | .conv2d inC outC k s p, .t4 n c h w =>
      if c = inC then do
        let h2 ← convOut h k s p
        let w2 ← convOut w k s p
        some (.t4 n outC h2 w2)
      else none
  | .conv2d _ _ _ _ _, .t2 _ _ => none
  | .batchNorm2d ch _, .t4 n c h w =>
      if c = ch then some (.t4 n c h w) else none
  | .batchNorm2d _ _, .t2 _ _ => none
  | .relu, s => some s
  | .maxPool2d k st p, .t4 n c h w => do
      let h2 ← convOut h k st p
      let w2 ← convOut w k st p
      some (.t4 n c h2 w2)
  | .maxPool2d _ _ _, .t2 _ _ => none
  | .adaptiveAvgPool2d o, .t4 n c h w =>
      if 1 ≤ h ∧ 1 ≤ w then some (.t4 n c o o) else none
  | .adaptiveAvgPool2d _, .t2 _ _ => none
  | .linear inF outF, .t2 n f =>
      if f = inF then some (.t2 n outF) else none
  | .linear inF outF, .t4 n c h w =>
      if w = inF then some (.t4 n c h outF) else none
  | .dropout, s => some s
  | .flatten, .t4 n c h w => some (.t2 n (c * h * w))
  | .flatten, .t2 n f => some (.t2 n f)

/-- A network: a single layer, sequential composition, the identity, or a
residual unit `residual main shortcut postRelu` whose output is the sum
of the main branch and the shortcut branch applied to the same input,
optionally followed by a ReLU (`postRelu`). -/
inductive Net where
  | layer (l : SLayer)
  | seq (a b : Net)
  | id
  | residual (main shortcut : Net) (postRelu : Bool)
deriving DecidableEq, Repr

/-- Right-nested sequential composition of a list of networks
(`nn.Sequential`). -/
def seqList (l : List Net) : Net := l.foldr Net.seq Net.id

/-- Shape semantics of a network.  A residual unit requires the two
branches to produce equal shapes (the elementwise sum). -/
def shape : Net → TShape → Option TShape
  | .layer l, s => applySLayer l s
  | .seq a b, s => (shape a s).bind (shape b)
  | .id, s => some s
  | .residual m sc _, s => do
      let o ← shape m s
      let r ← shape sc s
      if o = r then some o else none

/-- One step of a forward pass: a layer application, an elementwise
addition of a residual, or a `view`/`reshape` to `(batch, -1)`. -/
inductive Step where
  | app (l : SLayer)
  | add
  | view
deriving DecidableEq, Repr

/-- The sequence of steps a sequentially-evaluated network performs; a
residual unit runs its main branch, then its shortcut, then adds. -/
def netTrace : Net → List Step
  | .layer l => [.app l]
  | .seq a b => netTrace a ++ netTrace b
  | .id => []
  | .residual m sc post =>
      netTrace m ++ netTrace sc ++ [.add] ++ (if post then [.app .relu] else [])

/-- Source `conv3x3`: 3x3 convolution with padding 1, no bias. -/
def conv3x3 (in_planes out_planes stride : Nat) : SLayer :=
  .conv2d in_planes out_planes 3 stride 1

/-- Source `conv1x1`: 1x1 convolution, no padding, no bias. -/
def conv1x1 (in_planes out_planes stride : Nat) : SLayer :=
  .conv2d in_planes out_planes 1 stride 0

/-! ### sn_MLP

`sn_MLP.__init__` stores `num_classes` on `self`, builds `fc1`, and then
evaluates `nn.BatchNorm2d(self.n_coefficients*3, ...)`.  Python attribute
lookup on the module is modelled by an explicit record of the attributes
assigned so far; reading an attribute that was never assigned is the
`AttributeError` that `nn.Module.__getattr__` raises. -/

/-- The attributes `sn_MLP.__init__` can assign, each `none` until the
corresponding `self.x = ...` statement runs. -/
structure MLPSelf where
  num_classes : Option Nat := none
  n_coefficients : Option Nat := none
  layers : Option (List SLayer) := none
deriving DecidableEq, Repr

/-- Reading `self.n_coefficients`: the value if it was assigned,
otherwise the `AttributeError` raised by `nn.Module.__getattr__`. -/
def MLPSelf.read_n_coefficients (s : MLPSelf) : Except String Nat :=
  match s.n_coefficients with
  | some v => .ok v
  | none => .error "AttributeError: sn_MLP object has no attribute n_coefficients"

/-- `sn_MLP.__init__(num_classes, n_coefficients, M_coefficient,
N_coefficient)`, statement by statement: assign `self.num_classes`,
build `fc1 = Linear(3*M*N*n, 512)`, then build the `Sequential` whose
first member reads `self.n_coefficients`. -/
def sn_MLP_init (num_classes n_coefficients M_coefficient N_coefficient : Nat) :
    Except String MLPSelf := do
  let self : MLPSelf := {}
  let self := { self with num_classes := some num_classes }
  let fc1 := SLayer.linear (3 * M_coefficient * N_coefficient * n_coefficients) 512
  let nc ← self.read_n_coefficients
  let self := { self with
    layers := some [SLayer.batchNorm2d (nc * 3) true, fc1, .relu,
      .linear 512 256, .relu, .linear 256 128, .relu, .linear 128 64, .relu,
      .linear 64 num_classes] }
  return self

/-- `sn_MLP.forward`: `x = x.view(x.shape[0], -1)` then `self.layers(x)`.
The trace records the view and then each member of the `Sequential`; the
input tensor is passed along but never branched on. -/
def sn_MLP_forward_trace {α : Type} (layers : List SLayer) (_x : α) : List Step :=
  .view :: layers.map .app

/-! ### BasicBlock -/

/-- Construction data of a `BasicBlock(inplanes, planes, stride,
downsample)`; `hasDownsample` records whether a downsample module was
supplied. -/
structure BlockSpec where
  inplanes : Nat
  planes : Nat
  stride : Nat
  hasDownsample : Bool
deriving DecidableEq, Repr

/-- `BasicBlock.forward` over an abstract tensor type: `residual = x`;
`out = conv1(x)`, `bn1`, `relu`, `conv2`, `bn2`; if a downsample module
was supplied, `residual = downsample(x)`; `out += residual`;
`out = relu(out)`. -/
def BasicBlock_forward {α : Type} (conv1 bn1 relu conv2 bn2 : α → α)
    (downsample : Option (α → α)) (add : α → α → α) (x : α) : α :=
  let residual := x
  let out := conv1 x
  let out := bn1 out
  let out := relu out
  let out := conv2 out
  let out := bn2 out
  let residual := match downsample with
    | some d => d x
    | none => residual
  let out := add out residual
  relu out

/-- The network a `BasicBlock` assembles: main branch `conv3x3 → bn →
relu → conv3x3 → bn`, shortcut the downsample (`conv1x1` then batch
norm, built by `sn_CNN._make_layer`) when present and the identity
otherwise, with a ReLU after the addition. -/
def basicBlockNet (b : BlockSpec) : Net :=
  .residual
    (seqList [.layer (conv3x3 b.inplanes b.planes b.stride),
      .layer (.batchNorm2d b.planes true), .layer .relu,
      .layer (conv3x3 b.planes b.planes 1), .layer (.batchNorm2d b.planes true)])
    (if b.hasDownsample then
      seqList [.layer (conv1x1 b.inplanes b.planes b.stride),
        .layer (.batchNorm2d b.planes true)]
     else .id)
    true

/-- Sequential composition of a group of `BasicBlock`s
(what `sn_CNN._make_layer` wraps in `nn.Sequential`). -/
def blocksNet (l : List BlockSpec) : Net := seqList (l.map basicBlockNet)

/-- The steps `BasicBlock.forward` performs, in source order: conv1,
bn1, relu, conv2, bn2, the downsample layers when present, the addition,
and the final relu.  The input is never branched on. -/
def BasicBlock_forward_trace {α : Type} (b : BlockSpec) (_x : α) : List Step :=
  [.app (conv3x3 b.inplanes b.planes b.stride), .app (.batchNorm2d b.planes true),
    .app .relu, .app (conv3x3 b.planes b.planes 1), .app (.batchNorm2d b.planes true)]
  ++ (if b.hasDownsample then
        [.app (conv1x1 b.inplanes b.planes b.stride), .app (.batchNorm2d b.planes true)]
      else [])
  ++ [.add, .app .relu]

/-! ### sn_CNN -/

/-- `sn_CNN._make_layer(block, planes, blocks, stride=1)`.  Input: the
current `self.inplanes`; output: the list of `BasicBlock` specs and the
updated `self.inplanes`.  A downsample is built when
`stride != 1 or self.inplanes != planes`; the first block gets it; the
loop `for i in range(1, blocks)` then appends `block(self.inplanes,
planes)` (stride 1, no downsample) after `self.inplanes = planes`. -/
def sn_CNN_make_layer (inplanes planes blocks stride : Nat) :
    List BlockSpec × Nat :=
  let downsample : Bool := stride != 1 || inplanes != planes
  let layers := [BlockSpec.mk inplanes planes stride downsample]
  let inplanes := planes
  let layers := layers ++
    (List.range' 1 (blocks - 1)).map (fun _ => BlockSpec.mk inplanes planes 1 false)
  (layers, inplanes)

/-- The architecture `sn_CNN.__init__` assembles.  `layer1` exists only
in `standard` mode; `init_conv` is the `nn.Sequential` stored under that
name; `inplanes` is the final value of `self.inplanes`. -/
structure SN_CNN where
  bn0 : SLayer
  init_conv : List SLayer
  layer1 : Option (List BlockSpec)
  layer2 : List BlockSpec
  layer3 : List BlockSpec
  avgpool : SLayer
  fc : SLayer
  standard : Bool
  inplanes : Nat
  num_classes : Nat
deriving DecidableEq, Repr

/-- `sn_CNN.__init__(in_channels, k=8, n=4, num_classes=10,
standard=False)`: `bn0` over `in_channels*3` channels; in standard mode
`init_conv` is `Conv2d(3, 16k) → bn → relu` and `layer1` a group of `n`
blocks at `16k`; otherwise `init_conv` is a non-affine batch norm over
`in_channels*3` followed by `Conv2d(in_channels*3, 16k) → bn → relu`.
Then `layer2` at `32k`, `layer3` at `64k`, `AdaptiveAvgPool2d(2)` and
`Linear(64*k*4, num_classes)`, threading `self.inplanes` throughout. -/
def sn_CNN_init (in_channels k n num_classes : Nat) (standard : Bool) : SN_CNN :=
  let inplanes := 16 * k
  let ichannels := 16 * k
  let inC3 := in_channels * 3
  let bn0 := SLayer.batchNorm2d inC3 true
  let (init_conv, layer1, inplanes) :=
    if standard then
      let (l1, inplanes) := sn_CNN_make_layer inplanes (16 * k) n 1
      ([conv3x3 3 ichannels 1, SLayer.batchNorm2d ichannels true, SLayer.relu],
        some l1, inplanes)
    else
      ([SLayer.batchNorm2d inC3 false, conv3x3 inC3 ichannels 1,
        SLayer.batchNorm2d ichannels true, SLayer.relu],
        none, inplanes)
  let (l2, inplanes) := sn_CNN_make_layer inplanes (32 * k) n 1
  let (l3, inplanes) := sn_CNN_make_layer inplanes (64 * k) n 1
  { bn0 := bn0, init_conv := init_conv, layer1 := layer1, layer2 := l2,
    layer3 := l3, avgpool := .adaptiveAvgPool2d 2,
    fc := .linear (64 * k * 4) num_classes, standard := standard,
    inplanes := inplanes, num_classes := num_classes }

/-- The network `sn_CNN.forward` runs: `bn0`, `init_conv`, `layer1` only
when `self.standard`, `layer2`, `layer3`, `avgpool`,
`x.view(x.size(0), -1)`, `fc`. -/
def sn_CNN_forwardNet (m : SN_CNN) : Net :=
  seqList ([Net.layer m.bn0] ++ m.init_conv.map Net.layer
    ++ (if m.standard then [blocksNet (m.layer1.getD [])] else [])
    ++ [blocksNet m.layer2, blocksNet m.layer3, Net.layer m.avgpool,
        Net.layer .flatten, Net.layer m.fc])

/-- The steps `sn_CNN.forward` performs; the only conditional is on
`self.standard`, never on the input tensor. -/
def sn_CNN_forward_trace {α : Type} (m : SN_CNN) (x : α) : List Step :=
  [.app m.bn0] ++ m.init_conv.map .app
  ++ (if m.standard then
        ((m.layer1.getD []).map (fun b => BasicBlock_forward_trace b x)).foldr
          (· ++ ·) []
      else [])
  ++ (m.layer2.map (fun b => BasicBlock_forward_trace b x)).foldr (· ++ ·) []
  ++ (m.layer3.map (fun b => BasicBlock_forward_trace b x)).foldr (· ++ ·) []
  ++ [.app m.avgpool, .view, .app m.fc]

/-! ### sn_LinearLayer -/

/-- The modules `sn_LinearLayer.__init__` assembles. -/
structure SN_LinearLayer where
  n_coefficients : Nat
  num_classes : Nat
  fc1 : SLayer
  bn0 : SLayer
deriving DecidableEq, Repr

/-- `sn_LinearLayer.__init__(num_classes, n_coefficients, M_coefficient,
N_coefficient)`: `fc1 = Linear(3*M*N*n, num_classes)` and
`bn0 = BatchNorm2d(self.n_coefficients*3, affine=True)`. -/
def sn_LinearLayer_init (num_classes n_coefficients M_coefficient N_coefficient : Nat) :
    SN_LinearLayer :=
  { n_coefficients := n_coefficients, num_classes := num_classes,
    fc1 := .linear (3 * M_coefficient * N_coefficient * n_coefficients) num_classes,
    bn0 := .batchNorm2d (n_coefficients * 3) true }

/-- The network `sn_LinearLayer.forward` runs: `bn0`, then
`x.reshape(x.shape[0], -1)`, then `fc1`. -/
def sn_LinearLayer_forwardNet (m : SN_LinearLayer) : Net :=
  seqList [.layer m.bn0, .layer .flatten, .layer m.fc1]

/-- The steps `sn_LinearLayer.forward` performs: exactly `bn0`, the
reshape, and `fc1`. -/
def sn_LinearLayer_forward_trace {α : Type} (m : SN_LinearLayer) (_x : α) : List Step :=
  [.app m.bn0, .view, .app m.fc1]

/-! ### sn_Resnet50

`torchvision.models.resnet50(pretrained=True)` is external library code;
its architecture is modelled here: a 7x7 stride-2 convolution stem, a
3x3 stride-2 max pool, four groups of `Bottleneck` blocks of 3, 4, 6 and
3 blocks at widths 64, 128, 256 and 512 (output channels four times the
width, stride 2 on the first block of groups 2 to 4), adaptive average
pooling to 1x1, `torch.flatten(x, 1)`, and a final
`fc = Linear(512 * 4, 1000)`. -/

/-- A torchvision `Bottleneck(inplanes, planes, stride)`: main branch
`conv1x1 → bn → relu → conv3x3(stride) → bn → relu → conv1x1(planes*4) →
bn`, shortcut a strided `conv1x1` plus batch norm when `hasDown`, ReLU
after the addition. -/
def bottleneckNet (inplanes planes stride : Nat) (hasDown : Bool) : Net :=
  .residual
    (seqList [.layer (conv1x1 inplanes planes 1), .layer (.batchNorm2d planes true),
      .layer .relu, .layer (conv3x3 planes planes stride),
      .layer (.batchNorm2d planes true), .layer .relu,
      .layer (conv1x1 planes (planes * 4) 1),
      .layer (.batchNorm2d (planes * 4) true)])
    (if hasDown then
      seqList [.layer (conv1x1 inplanes (planes * 4) stride),
        .layer (.batchNorm2d (planes * 4) true)]
     else .id)
    true

/-- A ResNet group `_make_layer(Bottleneck, planes, blocks, stride)`:
the first block carries the stride and a downsample when
`stride != 1 or inplanes != planes * 4`, the rest run at `planes * 4`
with stride 1.  Returns the group and the updated `inplanes`. -/
def resnetBottleneckLayer (inplanes planes blocks stride : Nat) : Net × Nat :=
  let hasDown : Bool := stride != 1 || inplanes != planes * 4
  let first := bottleneckNet inplanes planes stride hasDown
  let rest := List.range' 1 (blocks - 1) |>.map
    (fun _ => bottleneckNet (planes * 4) planes 1 false)
  (seqList (first :: rest), planes * 4)

/-- Everything the torchvision ResNet-50 forward runs before the final
`torch.flatten(x, 1)`: the stem, the four bottleneck groups, and the
adaptive average pooling. -/
def resnet50_features_bulk : Net :=
  let inplanes := 64
  let (l1, inplanes) := resnetBottleneckLayer inplanes 64 3 1
  let (l2, inplanes) := resnetBottleneckLayer inplanes 128 4 2
  let (l3, inplanes) := resnetBottleneckLayer inplanes 256 6 2
  let (l4, _) := resnetBottleneckLayer inplanes 512 3 2
  seqList [.layer (.conv2d 3 64 7 2 3), .layer (.batchNorm2d 64 true),
    .layer .relu, .layer (.maxPool2d 3 2 1), l1, l2, l3, l4,
    .layer (.adaptiveAvgPool2d 1)]

/-- Everything the torchvision ResNet-50 forward runs before `fc`,
with `torch.flatten(x, 1)` as the last step. -/
def resnet50_features : Net :=
  Net.seq resnet50_features_bulk (.layer .flatten)

/-- The pretrained torchvision model as loaded by
`models.resnet50(pretrained=True)`: the feature pipeline and the
original classifier `fc = Linear(512 * 4, 1000)`. -/
structure TorchResNet50 where
  features : Net
  fc : SLayer
deriving DecidableEq, Repr

/-- `models.resnet50(pretrained=True)`. -/
def torchvision_resnet50 : TorchResNet50 :=
  { features := resnet50_features, fc := .linear (512 * 4) 1000 }

/-- The `in_features` of a `Linear` layer (`self.model_ft.fc.in_features`). -/
def SLayer.in_features : SLayer → Nat
  | .linear inF _ => inF
  | _ => 0

/-- The modules of an `sn_Resnet50` instance: the wrapped model's
feature pipeline and its (possibly replaced) classifier. -/
structure SN_Resnet50 where
  features : Net
  fc : SLayer
  num_classes : Nat
deriving DecidableEq, Repr

/-- `sn_Resnet50.__init__(num_classes)`: load the pretrained ResNet-50,
read `num_ftrs = self.model_ft.fc.in_features`, and replace `fc` with
`Linear(num_ftrs, num_classes)`; everything else is kept. -/
def sn_Resnet50_init (num_classes : Nat) : SN_Resnet50 :=
  let model_ft := torchvision_resnet50
  let num_ftrs := model_ft.fc.in_features
  { features := model_ft.features, fc := .linear num_ftrs num_classes,
    num_classes := num_classes }

/-- The network the wrapped model runs (`x = self.model_ft(x)`):
the feature pipeline then the classifier. -/
def sn_Resnet50_forwardNet (m : SN_Resnet50) : Net :=
  Net.seq m.features (.layer m.fc)

/-- The backbone as loaded (with its original 1000-way classifier);
an input is "accepted by the backbone" when this network gives it a
shape. -/
def resnet50_backboneNet : Net :=
  Net.seq torchvision_resnet50.features (.layer torchvision_resnet50.fc)

/-- The steps `sn_Resnet50.forward` performs: the wrapped model's
sequential evaluation, never branching on the input. -/
def sn_Resnet50_forward_trace {α : Type} (m : SN_Resnet50) (_x : α) : List Step :=
  netTrace m.features ++ [.app m.fc]

/-! ### BasicBlockWRN16_8 and WideResNet16_8 -/

/-- Construction arguments of a `BasicBlockWRN16_8(inplanes, planes,
dropout, stride)` (the dropout probability does not affect the wiring). -/
structure WRNBlockSpec where
  inplanes : Nat
  planes : Nat
  stride : Nat
deriving DecidableEq, Repr

/-- `BasicBlockWRN16_8.__init__` builds the 1x1 shortcut convolution and
sets `use_conv1x1` exactly when `stride != 1 or inplanes != planes`. -/
def BasicBlockWRN16_8_use_conv1x1 (b : WRNBlockSpec) : Bool :=
  b.stride != 1 || b.inplanes != b.planes

/-- `BasicBlockWRN16_8.forward` over an abstract tensor type:
`out = bn1(x)`, `out = relu(out)`; the shortcut is `self.shortcut(out)`
(the activated tensor) when `use_conv1x1` and the raw `x` otherwise;
then `conv1`, `bn2`, `relu`, `dropout`, `conv2`, and `out += shortcut`
with no activation afterwards. -/
def BasicBlockWRN16_8_forward {α : Type}
    (bn1 relu shortcutConv conv1 bn2 dropout conv2 : α → α)
    (use_conv1x1 : Bool) (add : α → α → α) (x : α) : α :=
  let out := bn1 x
  let out := relu out
  let shortcut := if use_conv1x1 then shortcutConv out else x
  let out := conv1 out
  let out := bn2 out
  let out := relu out
  let out := dropout out
  let out := conv2 out
  add out shortcut

/-- The steps `BasicBlockWRN16_8.forward` performs, in source order; the
only conditional is on the construction-time `use_conv1x1` flag. -/
def BasicBlockWRN16_8_forward_trace {α : Type} (b : WRNBlockSpec) (_x : α) : List Step :=
  [.app (.batchNorm2d b.inplanes true), .app .relu]
  ++ (if BasicBlockWRN16_8_use_conv1x1 b then
        [.app (conv1x1 b.inplanes b.planes b.stride)]
      else [])
  ++ [.app (conv3x3 b.inplanes b.planes b.stride), .app (.batchNorm2d b.planes true),
      .app .relu, .app .dropout, .app (conv3x3 b.planes b.planes 1), .add]

/-- `WideResNet16_8._make_layer(planes, blocks, dropout, stride)`:
`for i in range(blocks)` append `BasicBlockWRN16_8(self.inplanes,
planes, dropout, stride if i == 0 else 1)` and set
`self.inplanes = planes`.  Input and output include `self.inplanes`;
a non-positive `blocks` (Python `range` of a negative int) yields no
blocks and leaves `self.inplanes` unchanged. -/
def wrn_make_layer (inplanes planes : Nat) (blocks : Int) (stride : Nat) :
    List WRNBlockSpec × Nat :=
  let step := fun (st : List WRNBlockSpec × Nat) (i : Nat) =>
    (st.1 ++ [WRNBlockSpec.mk st.2 planes (if i = 0 then stride else 1)], planes)
  (List.range blocks.toNat).foldl step ([], inplanes)

/-- The architecture `WideResNet16_8.__init__` assembles. -/
structure WRN where
  conv : SLayer
  layer1 : List WRNBlockSpec
  layer2 : List WRNBlockSpec
  layer3 : List WRNBlockSpec
  bn : SLayer
  fc : SLayer
  inplanes : Nat
deriving DecidableEq, Repr

/-- `WideResNet16_8.__init__(depth, width, num_classes, dropout)`:
`layer = (depth - 4) // 6` (Python floor division on ints), then a 3x3
stem from 3 to 16 channels and three groups at `16*width`, `32*width`
and `64*width` with strides 1, 2, 2, followed by
`BatchNorm2d(64*width)` and `Linear(64*width, num_classes)`. -/
def WideResNet16_8_init (depth : Int) (width num_classes : Nat) : WRN :=
  let layer := (depth - 4).fdiv 6
  let inplanes := 16
  let conv := conv3x3 3 16 1
  let (l1, inplanes) := wrn_make_layer inplanes (16 * width) layer 1
  let (l2, inplanes) := wrn_make_layer inplanes (32 * width) layer 2
  let (l3, inplanes) := wrn_make_layer inplanes (64 * width) layer 2
  { conv := conv, layer1 := l1, layer2 := l2, layer3 := l3,
    bn := .batchNorm2d (64 * width) true, fc := .linear (64 * width) num_classes,
    inplanes := inplanes }

/-- The steps `WideResNet16_8.forward` performs: stem, the three groups,
`bn`, `relu`, `AdaptiveAvgPool2d(1)`, `x.view(x.size(0), -1)`, `fc`. -/
def WideResNet16_8_forward_trace {α : Type} (m : WRN) (x : α) : List Step :=
  [.app m.conv]
  ++ (m.layer1.map (fun b => BasicBlockWRN16_8_forward_trace b x)).foldr (· ++ ·) []
  ++ (m.layer2.map (fun b => BasicBlockWRN16_8_forward_trace b x)).foldr (· ++ ·) []
  ++ (m.layer3.map (fun b => BasicBlockWRN16_8_forward_trace b x)).foldr (· ++ ·) []
  ++ [.app m.bn, .app .relu, .app (.adaptiveAvgPool2d 1), .view, .app m.fc]

/-- A parameter tensor of the model: its dimensions and its
`requires_grad` flag. -/
structure PTensor where
  dims : List Nat
  requires_grad : Bool
deriving DecidableEq, Repr

/-- `t.numel()`: the number of elements of a tensor. -/
def PTensor.numel (t : PTensor) : Nat := t.dims.prod

/-- `WideResNet16_8.countLearnableParams`, over the list of tensors
`self.parameters()` yields:
`count = 0; for t in self.parameters(): count += t.numel()`. -/
def WideResNet16_8_countLearnableParams (params : List PTensor) : Nat :=
  params.foldl (fun count t => count + t.numel) 0

/-! ### Helper lemmas -/

/-- Mapping a constant over `List.range'` yields a `replicate`. -/
lemma map_const_range' {β : Type} (x : β) :
    ∀ (n a : Nat), (List.range' a n).map (fun _ => x) = List.replicate n x
  | 0, _ => rfl
  | n + 1, a => by
      simp only [List.range', List.map, List.replicate, List.cons.injEq, true_and]
      exact map_const_range' x n (a + 1)

/-- Closed form of `sn_CNN._make_layer`: first block with the stride and
the downsample flag, then `blocks - 1` stride-1 blocks at `planes`, and
`self.inplanes` updated to `planes`. -/
lemma sn_CNN_make_layer_eq (inplanes planes blocks stride : Nat) :
    sn_CNN_make_layer inplanes planes blocks stride =
      (BlockSpec.mk inplanes planes stride (stride != 1 || inplanes != planes) ::
        List.replicate (blocks - 1) (BlockSpec.mk planes planes 1 false), planes) := by
  simp [sn_CNN_make_layer, map_const_range']

/-- Spatial extent through a 3x3 stride-1 padding-1 convolution. -/
lemma convOut_3_1_1 {h : Nat} (hh : 1 ≤ h) : convOut h 3 1 1 = some h := by
  unfold convOut
  rw [if_pos (by omega)]
  congr 1
  omega

/-- Spatial extent through a 1x1 stride-1 convolution. -/
lemma convOut_1_1_0 {h : Nat} (hh : 1 ≤ h) : convOut h 1 1 0 = some h := by
  unfold convOut
  rw [if_pos (by omega)]
  congr 1
  omega

/-- A stride-1 `BasicBlock` preserves the spatial extent and moves the
channel count from `inplanes` to `planes`, provided a downsample is
present whenever the channel count changes. -/
lemma shape_basicBlock {i p b h w : Nat} {d : Bool} (hd : d = true ∨ i = p)
    (hh : 1 ≤ h) (hw : 1 ≤ w) :
    shape (basicBlockNet (BlockSpec.mk i p 1 d)) (.t4 b i h w) =
      some (.t4 b p h w) := by
  cases d with
  | true =>
      simp [basicBlockNet, shape, seqList, applySLayer, conv3x3, conv1x1,
        convOut_3_1_1 hh, convOut_3_1_1 hw, convOut_1_1_0 hh, convOut_1_1_0 hw]
  | false =>
      have hip : i = p := hd.resolve_left (by simp)
      subst hip
      simp [basicBlockNet, shape, seqList, applySLayer, conv3x3,
        convOut_3_1_1 hh, convOut_3_1_1 hw]

/-- Shape of a group of blocks, one block at a time. -/
lemma shape_blocksNet_cons (bsp : BlockSpec) (l : List BlockSpec) (s : TShape) :
    shape (blocksNet (bsp :: l)) s =
      (shape (basicBlockNet bsp) s).bind (shape (blocksNet l)) := rfl

/-- A run of identity-shaped stride-1 blocks at `planes` preserves
the shape. -/
lemma shape_blocksNet_replicate {p b h w : Nat} (m : Nat) (hh : 1 ≤ h) (hw : 1 ≤ w) :
    shape (blocksNet (List.replicate m (BlockSpec.mk p p 1 false))) (.t4 b p h w) =
      some (.t4 b p h w) := by
  induction m with
  | zero => rfl
  | succ k ih =>
      rw [List.replicate_succ, shape_blocksNet_cons,
        shape_basicBlock (Or.inr rfl) hh hw]
      simpa using ih

/-- Shape through a full `sn_CNN._make_layer` group built at stride 1:
channels go from `inplanes` to `planes`, spatial extent is preserved. -/
lemma shape_group {i p b h w : Nat} (n : Nat) (hh : 1 ≤ h) (hw : 1 ≤ w) :
    shape (blocksNet (sn_CNN_make_layer i p n 1).1) (.t4 b i h w) =
      some (.t4 b p h w) := by
  rw [sn_CNN_make_layer_eq]
  have hd : ((1 : Nat) != 1 || i != p) = true ∨ i = p := by
    by_cases hip : i = p
    · exact Or.inr hip
    · exact Or.inl (by simp [hip])
  rw [shape_blocksNet_cons, shape_basicBlock hd hh hw]
  simpa using shape_blocksNet_replicate (n - 1) hh hw

/-- Unrolling: `count = 0; for t in l: count += t.numel()` computes the
sum of the element counts. -/
lemma foldl_add_numel (l : List PTensor) (a : Nat) :
    l.foldl (fun count t => count + t.numel) a = a + (l.map PTensor.numel).sum := by
  induction l generalizing a with
  | nil => simp
  | cons x xs ih => simp [ih, Nat.add_assoc]

/-- Splitting a sum of element counts by the `requires_grad` flag. -/
lemma sum_numel_filter_split (l : List PTensor) :
    ((l.filter (fun t => t.requires_grad)).map PTensor.numel).sum +
      ((l.filter (fun t => !t.requires_grad)).map PTensor.numel).sum =
      (l.map PTensor.numel).sum := by
  induction l with
  | nil => rfl
  | cons x xs ih =>
      cases hx : x.requires_grad <;>
        simp [List.filter_cons, hx, ← ih] <;> omega

/-! ### Claim theorems -/

/-- C1: `sn_MLP.__init__` never succeeds: for every choice of
`num_classes`, `n_coefficients`, `M_coefficient` and `N_coefficient`, the
constructor reads `self.n_coefficients`, which no statement ever
assigned (only `self.num_classes` is), so construction raises
`AttributeError` instead of yielding a module. -/
theorem sn_MLP_init_raises (num_classes n_coefficients M_coefficient N_coefficient : Nat) :
    sn_MLP_init num_classes n_coefficients M_coefficient N_coefficient =
      Except.error "AttributeError: sn_MLP object has no attribute n_coefficients" := rfl

/-- C2: `BasicBlock.forward` computes
`relu(bn2(conv2(relu(bn1(conv1(x))))) + r)` where `r` is `downsample(x)`
when a downsample module was supplied and `x` itself otherwise. -/
theorem BasicBlock_forward_eq {α : Type} (conv1 bn1 relu conv2 bn2 : α → α)
    (downsample : Option (α → α)) (add : α → α → α) (x : α) :
    BasicBlock_forward conv1 bn1 relu conv2 bn2 downsample add x =
      relu (add (bn2 (conv2 (relu (bn1 (conv1 x)))))
        (match downsample with
          | some d => d x
          | none => x)) := by
  cases downsample <;> rfl

/-- C5: every forward pass has a fixed topology: for each of the seven
module classes, the sequence of steps forward performs depends only on
the module (its construction-time configuration), never on the input
tensor: two calls on equal or different inputs yield the same trace. -/
theorem forward_topology_fixed {α : Type} (x y : α) :
    (∀ layers : List SLayer, sn_MLP_forward_trace layers x = sn_MLP_forward_trace layers y) ∧
    (∀ m : SN_LinearLayer, sn_LinearLayer_forward_trace m x = sn_LinearLayer_forward_trace m y) ∧
    (∀ m : SN_CNN, sn_CNN_forward_trace m x = sn_CNN_forward_trace m y) ∧
    (∀ m : SN_Resnet50, sn_Resnet50_forward_trace m x = sn_Resnet50_forward_trace m y) ∧
    (∀ b : BlockSpec, BasicBlock_forward_trace b x = BasicBlock_forward_trace b y) ∧
    (∀ b : WRNBlockSpec, BasicBlockWRN16_8_forward_trace b x = BasicBlockWRN16_8_forward_trace b y) ∧
    (∀ m : WRN, WideResNet16_8_forward_trace m x = WideResNet16_8_forward_trace m y) :=
  ⟨fun _ => rfl, fun _ => rfl, fun _ => rfl, fun _ => rfl,
    fun _ => rfl, fun _ => rfl, fun _ => rfl⟩

/-- C8: in `BasicBlockWRN16_8`, `use_conv1x1` is true exactly when
`stride != 1 or inplanes != planes`; when true, the shortcut added to
the residual branch is the 1x1 convolution of `relu(bn1(x))` (the
activated tensor), when false it is the raw input `x`; and in both
cases the output is the bare sum, with no activation after the
addition. -/
theorem BasicBlockWRN16_8_shortcut_spec {α : Type} (b : WRNBlockSpec) :
    (BasicBlockWRN16_8_use_conv1x1 b = true ↔ (b.stride ≠ 1 ∨ b.inplanes ≠ b.planes)) ∧
    (∀ (u : Bool) (bn1 relu shortcutConv conv1 bn2 dropout conv2 : α → α)
        (add : α → α → α) (x : α),
      BasicBlockWRN16_8_forward bn1 relu shortcutConv conv1 bn2 dropout conv2 u add x =
        add (conv2 (dropout (relu (bn2 (conv1 (relu (bn1 x)))))))
          (if u = true then shortcutConv (relu (bn1 x)) else x)) := by
  constructor
  · simp [BasicBlockWRN16_8_use_conv1x1]
  · intro u bn1 relu shortcutConv conv1 bn2 dropout conv2 add x
    cases u <;> rfl

/-- C9: `WideResNet16_8.countLearnableParams` returns the sum of
`numel` over every tensor yielded by `self.parameters()`, with no
filtering on `requires_grad`: the total equals the trainable total plus
the frozen total. -/
theorem countLearnableParams_counts_all (params : List PTensor) :
    WideResNet16_8_countLearnableParams params = (params.map PTensor.numel).sum ∧
    WideResNet16_8_countLearnableParams params =
      ((params.filter (fun t => t.requires_grad)).map PTensor.numel).sum +
        ((params.filter (fun t => !t.requires_grad)).map PTensor.numel).sum := by
  have htot : WideResNet16_8_countLearnableParams params = (params.map PTensor.numel).sum := by
    simpa using foldl_add_numel params 0
  exact ⟨htot, by rw [htot, sum_numel_filter_split]⟩

/-- C10: `sn_CNN._make_layer` attaches a downsample to the first block
exactly when `stride != 1` or the incoming `inplanes` differs from
`planes`; every later block is built with `inplanes = planes`, stride 1
and no downsample; and the returned `self.inplanes` equals `planes`. -/
theorem sn_CNN_make_layer_invariant (inplanes planes blocks stride : Nat) :
    ∃ d : Bool,
      sn_CNN_make_layer inplanes planes blocks stride =
        (BlockSpec.mk inplanes planes stride d ::
          List.replicate (blocks - 1) (BlockSpec.mk planes planes 1 false), planes) ∧
      (d = true ↔ (stride ≠ 1 ∨ inplanes ≠ planes)) := by
  refine ⟨stride != 1 || inplanes != planes, sn_CNN_make_layer_eq _ _ _ _, ?_⟩
  simp

/-- C7: `sn_LinearLayer` applies batch normalization over
`3*n_coefficients` channels, reshapes to
`(batch, 3*M_coefficient*N_coefficient*n_coefficients)`, applies the
single linear layer `fc1` to reach `(batch, num_classes)`, and performs
no other transformation. -/
theorem sn_LinearLayer_spec (num_classes n_coefficients M_coefficient N_coefficient batch : Nat) :
    (sn_LinearLayer_init num_classes n_coefficients M_coefficient N_coefficient).bn0 =
      SLayer.batchNorm2d (n_coefficients * 3) true ∧
    (sn_LinearLayer_init num_classes n_coefficients M_coefficient N_coefficient).fc1 =
      SLayer.linear (3 * M_coefficient * N_coefficient * n_coefficients) num_classes ∧
    shape (sn_LinearLayer_forwardNet
        (sn_LinearLayer_init num_classes n_coefficients M_coefficient N_coefficient))
      (.t4 batch (3 * n_coefficients) M_coefficient N_coefficient) =
      some (.t2 batch num_classes) ∧
    (∀ {α : Type} (x : α),
      sn_LinearLayer_forward_trace
          (sn_LinearLayer_init num_classes n_coefficients M_coefficient N_coefficient) x =
        [.app (SLayer.batchNorm2d (n_coefficients * 3) true), .view,
          .app (SLayer.linear (3 * M_coefficient * N_coefficient * n_coefficients) num_classes)]) := by
  refine ⟨rfl, rfl, ?_, fun _ => rfl⟩
  have h1 : applySLayer (SLayer.batchNorm2d (n_coefficients * 3) true)
      (TShape.t4 batch (3 * n_coefficients) M_coefficient N_coefficient) =
      some (.t4 batch (3 * n_coefficients) M_coefficient N_coefficient) := by
    simp only [applySLayer]
    rw [if_pos (by ring)]
  have hflat : applySLayer SLayer.flatten
      (TShape.t4 batch (3 * n_coefficients) M_coefficient N_coefficient) =
      some (.t2 batch (3 * n_coefficients * M_coefficient * N_coefficient)) := rfl
  have h2 : applySLayer (SLayer.linear
        (3 * M_coefficient * N_coefficient * n_coefficients) num_classes)
      (TShape.t2 batch (3 * n_coefficients * M_coefficient * N_coefficient)) =
      some (.t2 batch num_classes) := by
    simp only [applySLayer]
    rw [if_pos (by ring)]
  simp only [sn_LinearLayer_forwardNet, sn_LinearLayer_init, seqList, List.foldr,
    shape, h1, hflat, h2, Option.some_bind]

/-- Unfolded form of `sn_CNN.__init__` with `standard=False`. -/
lemma sn_CNN_init_false_eq (in_channels k n num_classes : Nat) :
    sn_CNN_init in_channels k n num_classes false =
      { bn0 := .batchNorm2d (in_channels * 3) true,
        init_conv := [.batchNorm2d (in_channels * 3) false,
          conv3x3 (in_channels * 3) (16 * k) 1, .batchNorm2d (16 * k) true, .relu],
        layer1 := none,
        layer2 := (sn_CNN_make_layer (16 * k) (32 * k) n 1).1,
        layer3 := (sn_CNN_make_layer (32 * k) (64 * k) n 1).1,
        avgpool := .adaptiveAvgPool2d 2,
        fc := .linear (64 * k * 4) num_classes,
        standard := false, inplanes := 64 * k, num_classes := num_classes } := by
  simp [sn_CNN_init, sn_CNN_make_layer_eq]

/-- Unfolded form of `sn_CNN.__init__` with `standard=True`. -/
lemma sn_CNN_init_true_eq (in_channels k n num_classes : Nat) :
    sn_CNN_init in_channels k n num_classes true =
      { bn0 := .batchNorm2d (in_channels * 3) true,
        init_conv := [conv3x3 3 (16 * k) 1, .batchNorm2d (16 * k) true, .relu],
        layer1 := some (sn_CNN_make_layer (16 * k) (16 * k) n 1).1,
        layer2 := (sn_CNN_make_layer (16 * k) (32 * k) n 1).1,
        layer3 := (sn_CNN_make_layer (32 * k) (64 * k) n 1).1,
        avgpool := .adaptiveAvgPool2d 2,
        fc := .linear (64 * k * 4) num_classes,
        standard := true, inplanes := 64 * k, num_classes := num_classes } := by
  simp [sn_CNN_init, sn_CNN_make_layer_eq]

/-- The planes of every block of an `sn_CNN._make_layer` group. -/
lemma sn_CNN_make_layer_planes {i p : Nat} (n : Nat) (hn : 1 ≤ n) :
    ((sn_CNN_make_layer i p n 1).1).map BlockSpec.planes = List.replicate n p := by
  obtain ⟨m, rfl⟩ : ∃ m, n = m + 1 := ⟨n - 1, by omega⟩
  rw [sn_CNN_make_layer_eq]
  simp [List.map_replicate, List.replicate_succ]

/-- C3: with `standard=False`, `sn_CNN` has no raw-pixel group `layer1`;
its `init_conv` is a non-affine batch norm over `in_channels*3`
scattering channels, a 3x3 convolution to `16*k` channels, a batch norm
and a ReLU; `layer2` and `layer3` are residual groups of `n` blocks at
`32*k` and `64*k` channels; and forward (bn0, init_conv, layer2, layer3,
2x2 adaptive average pooling, flattening, linear) maps a
`(batch, in_channels*3, H, W)` input to `(batch, num_classes)`.  Only
with `standard=True` is there an extra residual group `layer1` of `n`
blocks at `16*k` channels, fed by an `init_conv` taking 3-channel
raw-pixel input. -/
theorem sn_CNN_architecture (in_channels k n num_classes batch H W : Nat)
    (hn : 1 ≤ n) (hH : 1 ≤ H) (hW : 1 ≤ W) :
    (sn_CNN_init in_channels k n num_classes false).layer1 = none ∧
    (sn_CNN_init in_channels k n num_classes false).init_conv =
      [.batchNorm2d (in_channels * 3) false, conv3x3 (in_channels * 3) (16 * k) 1,
        .batchNorm2d (16 * k) true, .relu] ∧
    (sn_CNN_init in_channels k n num_classes false).layer2.map BlockSpec.planes =
      List.replicate n (32 * k) ∧
    (sn_CNN_init in_channels k n num_classes false).layer3.map BlockSpec.planes =
      List.replicate n (64 * k) ∧
    (sn_CNN_init in_channels k n num_classes false).avgpool = .adaptiveAvgPool2d 2 ∧
    (sn_CNN_init in_channels k n num_classes false).fc = .linear (64 * k * 4) num_classes ∧
    shape (sn_CNN_forwardNet (sn_CNN_init in_channels k n num_classes false))
      (.t4 batch (in_channels * 3) H W) = some (.t2 batch num_classes) ∧
    (sn_CNN_init in_channels k n num_classes true).layer1.isSome = true ∧
    ((sn_CNN_init in_channels k n num_classes true).layer1.getD []).map BlockSpec.planes =
      List.replicate n (16 * k) ∧
    (sn_CNN_init in_channels k n num_classes true).init_conv.head? =
      some (conv3x3 3 (16 * k) 1) := by
  refine ⟨by rw [sn_CNN_init_false_eq], by rw [sn_CNN_init_false_eq],
    by rw [sn_CNN_init_false_eq]; exact sn_CNN_make_layer_planes n hn,
    by rw [sn_CNN_init_false_eq]; exact sn_CNN_make_layer_planes n hn,
    by rw [sn_CNN_init_false_eq], by rw [sn_CNN_init_false_eq], ?_,
    by rw [sn_CNN_init_true_eq]; rfl,
    by rw [sn_CNN_init_true_eq]; exact sn_CNN_make_layer_planes n hn,
    by rw [sn_CNN_init_true_eq]; rfl⟩
  rw [sn_CNN_init_false_eq]
  have hbn0 : shape (Net.layer (SLayer.batchNorm2d (in_channels * 3) true))
      (TShape.t4 batch (in_channels * 3) H W) =
      some (.t4 batch (in_channels * 3) H W) := by
    simp [shape, applySLayer]
  have hbnf : shape (Net.layer (SLayer.batchNorm2d (in_channels * 3) false))
      (TShape.t4 batch (in_channels * 3) H W) =
      some (.t4 batch (in_channels * 3) H W) := by
    simp [shape, applySLayer]
  have hconv : shape (Net.layer (conv3x3 (in_channels * 3) (16 * k) 1))
      (TShape.t4 batch (in_channels * 3) H W) = some (.t4 batch (16 * k) H W) := by
    simp [shape, applySLayer, conv3x3, convOut_3_1_1 hH, convOut_3_1_1 hW]
  have hbn16 : shape (Net.layer (SLayer.batchNorm2d (16 * k) true))
      (TShape.t4 batch (16 * k) H W) = some (.t4 batch (16 * k) H W) := by
    simp [shape, applySLayer]
  have hrelu : shape (Net.layer SLayer.relu) (TShape.t4 batch (16 * k) H W) =
      some (.t4 batch (16 * k) H W) := rfl
  have hpool : shape (Net.layer (SLayer.adaptiveAvgPool2d 2))
      (TShape.t4 batch (64 * k) H W) = some (.t4 batch (64 * k) 2 2) := by
    show applySLayer (SLayer.adaptiveAvgPool2d 2) (TShape.t4 batch (64 * k) H W) = _
    simp only [applySLayer]
    rw [if_pos ⟨hH, hW⟩]
  have hflat : shape (Net.layer SLayer.flatten) (TShape.t4 batch (64 * k) 2 2) =
      some (.t2 batch (64 * k * 2 * 2)) := rfl
  have hfc : shape (Net.layer (SLayer.linear (64 * k * 4) num_classes))
      (TShape.t2 batch (64 * k * 2 * 2)) = some (.t2 batch num_classes) := by
    show applySLayer (SLayer.linear (64 * k * 4) num_classes)
      (TShape.t2 batch (64 * k * 2 * 2)) = _
    simp only [applySLayer]
    rw [if_pos (by ring)]
  have hnil : ∀ s : TShape, shape (seqList []) s = some s := fun _ => rfl
  have hcons : ∀ (x : Net) (l : List Net) (s : TShape),
      shape (seqList (x :: l)) s = (shape x s).bind (shape (seqList l)) :=
    fun _ _ _ => rfl
  simp [sn_CNN_forwardNet, hcons, hnil, hbn0, hbnf, hconv, hbn16, hrelu,
    shape_group n hH hW, hpool, hflat, hfc]

/-- Concrete instantiation of the `sn_CNN` architecture theorem at the
default configuration (`in_channels=81, k=8, n=4, num_classes=10`) on a
batch of two 8x8 scattering inputs. -/
theorem sn_CNN_architecture_witness :
    1 ≤ 4 ∧ 1 ≤ 8 ∧
      shape (sn_CNN_forwardNet (sn_CNN_init 81 8 4 10 false)) (.t4 2 (81 * 3) 8 8) =
        some (.t2 2 10) :=
  ⟨by decide, by decide,
    (sn_CNN_architecture 81 8 4 10 2 8 8 (by decide) (by decide) (by decide)).2.2.2.2.2.2.1⟩

/-- The loop of `WideResNet16_8._make_layer` after its first iteration:
once `self.inplanes = planes`, every further iteration (`i ≠ 0`) appends
a stride-1 block at `planes`. -/
lemma wrn_make_layer_loop_rest (planes stride : Nat) :
    ∀ (l : List Nat), (∀ i ∈ l, i ≠ 0) → ∀ (acc : List WRNBlockSpec),
      l.foldl (fun (st : List WRNBlockSpec × Nat) (i : Nat) =>
          (st.1 ++ [WRNBlockSpec.mk st.2 planes (if i = 0 then stride else 1)], planes))
        (acc, planes) =
      (acc ++ List.replicate l.length (WRNBlockSpec.mk planes planes 1), planes) := by
  intro l
  induction l with
  | nil => intro _ acc; simp
  | cons x xs ih =>
      intro hne acc
      have hx : x ≠ 0 := hne x (by simp)
      rw [List.foldl_cons, if_neg hx,
        ih (fun i hi => hne i (by simp [hi])) (acc ++ [WRNBlockSpec.mk planes planes 1])]
      simp [List.replicate_succ]

/-- Closed form of `WideResNet16_8._make_layer`: a non-positive block
count builds nothing and keeps `self.inplanes`; otherwise the first
block carries the incoming `inplanes` and the stride, the remaining
blocks run at `planes` with stride 1, and `self.inplanes` becomes
`planes`. -/
lemma wrn_make_layer_eq (inplanes planes : Nat) (blocks : Int) (stride : Nat) :
    wrn_make_layer inplanes planes blocks stride =
      match blocks.toNat with
      | 0 => ([], inplanes)
      | m + 1 => (WRNBlockSpec.mk inplanes planes stride ::
          List.replicate m (WRNBlockSpec.mk planes planes 1), planes) := by
  unfold wrn_make_layer
  cases hb : blocks.toNat with
  | zero => rfl
  | succ m =>
      rw [List.range_succ_eq_map, List.foldl_cons]
      have hmap : ∀ i ∈ (List.range m).map Nat.succ, i ≠ 0 := by
        intro i hi
        obtain ⟨j, _, rfl⟩ := List.mem_map.mp hi
        exact Nat.succ_ne_zero j
      rw [if_pos rfl, List.nil_append,
        wrn_make_layer_loop_rest planes stride _ hmap
          [WRNBlockSpec.mk inplanes planes stride]]
      simp

/-- The planes, length and resulting `inplanes` of one
`WideResNet16_8._make_layer` group with `L` blocks. -/
lemma wrn_group_spec (inplanes planes stride : Nat) (blocks : Int) (L : Nat)
    (hb : blocks.toNat = L) :
    ((wrn_make_layer inplanes planes blocks stride).1).map WRNBlockSpec.planes =
        List.replicate L planes ∧
    (wrn_make_layer inplanes planes blocks stride).1.length = L := by
  rw [wrn_make_layer_eq, hb]
  cases L with
  | zero => simp
  | succ m => simp [List.replicate_succ]

/-- C4 (amended): for every `depth ≥ 4` and every `width`, the three
block groups of `WideResNet16_8` run at `16*width`, `32*width` and
`64*width` channels, the final batch norm and linear layer act on
`64*width` features, every group has exactly `(depth - 4) // 6`
residual blocks, and that count is the same for any other width. -/
theorem WideResNet16_8_width_spec (depth : Int) (width num_classes : Nat)
    (h4 : 4 ≤ depth) :
    ∃ L : Nat, (L : Int) = (depth - 4).fdiv 6 ∧
      (WideResNet16_8_init depth width num_classes).layer1.map WRNBlockSpec.planes =
        List.replicate L (16 * width) ∧
      (WideResNet16_8_init depth width num_classes).layer2.map WRNBlockSpec.planes =
        List.replicate L (32 * width) ∧
      (WideResNet16_8_init depth width num_classes).layer3.map WRNBlockSpec.planes =
        List.replicate L (64 * width) ∧
      (WideResNet16_8_init depth width num_classes).bn =
        .batchNorm2d (64 * width) true ∧
      (WideResNet16_8_init depth width num_classes).fc =
        .linear (64 * width) num_classes ∧
      (WideResNet16_8_init depth width num_classes).layer1.length = L ∧
      (WideResNet16_8_init depth width num_classes).layer2.length = L ∧
      (WideResNet16_8_init depth width num_classes).layer3.length = L ∧
      (∀ width2 num_classes2 : Nat,
        (WideResNet16_8_init depth width2 num_classes2).layer1.length = L ∧
        (WideResNet16_8_init depth width2 num_classes2).layer2.length = L ∧
        (WideResNet16_8_init depth width2 num_classes2).layer3.length = L) := by
  refine ⟨((depth - 4).fdiv 6).toNat, ?_, ?_⟩
  · exact Int.toNat_of_nonneg (Int.fdiv_nonneg (by omega) (by omega))
  · have hlay : ∀ (w nc : Nat), (WideResNet16_8_init depth w nc).layer1 =
        (wrn_make_layer 16 (16 * w) ((depth - 4).fdiv 6) 1).1 ∧
        (WideResNet16_8_init depth w nc).layer2 =
          (wrn_make_layer (wrn_make_layer 16 (16 * w) ((depth - 4).fdiv 6) 1).2
            (32 * w) ((depth - 4).fdiv 6) 2).1 ∧
        (WideResNet16_8_init depth w nc).layer3 =
          (wrn_make_layer
            (wrn_make_layer (wrn_make_layer 16 (16 * w) ((depth - 4).fdiv 6) 1).2
              (32 * w) ((depth - 4).fdiv 6) 2).2
            (64 * w) ((depth - 4).fdiv 6) 2).1 :=
      fun _ _ => ⟨rfl, rfl, rfl⟩
    refine ⟨?_, ?_, ?_, rfl, rfl, ?_, ?_, ?_, ?_⟩
    · rw [(hlay width num_classes).1]
      exact (wrn_group_spec _ _ _ _ _ rfl).1
    · rw [(hlay width num_classes).2.1]
      exact (wrn_group_spec _ _ _ _ _ rfl).1
    · rw [(hlay width num_classes).2.2]
      exact (wrn_group_spec _ _ _ _ _ rfl).1
    · rw [(hlay width num_classes).1]
      exact (wrn_group_spec _ _ _ _ _ rfl).2
    · rw [(hlay width num_classes).2.1]
      exact (wrn_group_spec _ _ _ _ _ rfl).2
    · rw [(hlay width num_classes).2.2]
      exact (wrn_group_spec _ _ _ _ _ rfl).2
    · intro width2 num_classes2
      exact ⟨by rw [(hlay width2 num_classes2).1]; exact (wrn_group_spec _ _ _ _ _ rfl).2,
        by rw [(hlay width2 num_classes2).2.1]; exact (wrn_group_spec _ _ _ _ _ rfl).2,
        by rw [(hlay width2 num_classes2).2.2]; exact (wrn_group_spec _ _ _ _ _ rfl).2⟩

/-- C4 counterexample: at `depth = 3` (where Python computes
`(3 - 4) // 6 = -1`), each group gets zero blocks, so the block count
does not equal `(depth - 4) // 6` for every depth. -/
theorem WideResNet16_8_depth3_cex :
    ¬ (((WideResNet16_8_init 3 1 10).layer1.length : Int) = ((3 : Int) - 4).fdiv 6) := by
  decide

/-- Concrete instantiation of the amended Wide-ResNet claim at the
repository's WRN-16-8 configuration (`depth=16, width=8`): two blocks
per group and a 512-feature classifier. -/
theorem WideResNet16_8_width_spec_witness :
    (4 : Int) ≤ 16 ∧
    (WideResNet16_8_init 16 8 10).fc = .linear (64 * 8) 10 ∧
    (WideResNet16_8_init 16 8 10).layer1.length = 2 := by
  obtain ⟨L, hL, _, _, _, _, hfc, hlen1, _⟩ := WideResNet16_8_width_spec 16 8 10 (by decide)
  have hL2 : L = 2 := by
    have : (L : Int) = 2 := by rw [hL]; decide
    exact_mod_cast this
  exact ⟨by decide, hfc, hL2 ▸ hlen1⟩

/-- No layer changes the batch dimension. -/
lemma applySLayer_batch (l : SLayer) (s r : TShape) (h : applySLayer l s = some r) :
    r.batch = s.batch := by
  cases l <;> cases s <;>
    simp only [applySLayer, Option.bind_eq_bind', Option.ite_none_right_eq_some,
      Option.bind_eq_some, Option.some.injEq, reduceCtorEq] at h <;>
    first
      | (rcases h with ⟨-, -, -, -, -, rfl⟩; rfl)
      | (rcases h with ⟨-, -, -, -, rfl⟩; rfl)
      | (rcases h with ⟨-, rfl⟩; rfl)
      | (rcases h with rfl; rfl)
      | exact h.elim

/-- No network changes the batch dimension. -/
lemma shape_batch : ∀ (net : Net) (s r : TShape), shape net s = some r →
    r.batch = s.batch
  | .layer l, s, r, h => applySLayer_batch l s r h
  | .seq a b, s, r, h => by
      simp only [shape, Option.bind_eq_some] at h
      obtain ⟨m, hm, hr⟩ := h
      rw [shape_batch b m r hr, shape_batch a s m hm]
  | .id, s, r, h => by
      simp only [shape, Option.some.injEq] at h
      rw [← h]
  | .residual mn sc post, s, r, h => by
      simp only [shape, Option.bind_eq_bind', Option.bind_eq_some] at h
      obtain ⟨o, ho, h2⟩ := h
      obtain ⟨rr, hrr, h3⟩ := h2
      have hro : r = o := by
        by_cases heq : o = rr
        · rw [if_pos heq] at h3
          exact (Option.some.injEq _ _ ▸ h3).symm
        · rw [if_neg heq] at h3
          exact absurd h3 (by simp)
      rw [hro]
      exact shape_batch mn s o ho

/-- C6: `sn_Resnet50` wraps the pretrained ResNet-50: construction keeps
the backbone's feature pipeline unchanged and replaces only the final
fully-connected layer with `Linear(num_ftrs, num_classes)` where
`num_ftrs` is the backbone classifier's `in_features`; and every input
the loaded backbone accepts is mapped by forward to shape
`(batch, num_classes)`. -/
theorem sn_Resnet50_spec (num_classes batch h w : Nat)
    (hacc : (shape resnet50_backboneNet (.t4 batch 3 h w)).isSome = true) :
    (sn_Resnet50_init num_classes).features = torchvision_resnet50.features ∧
    (sn_Resnet50_init num_classes).fc =
      .linear torchvision_resnet50.fc.in_features num_classes ∧
    shape (sn_Resnet50_forwardNet (sn_Resnet50_init num_classes)) (.t4 batch 3 h w) =
      some (.t2 batch num_classes) := by
  refine ⟨rfl, rfl, ?_⟩
  obtain ⟨r, hr⟩ := Option.isSome_iff_exists.mp hacc
  rw [show resnet50_backboneNet =
      Net.seq torchvision_resnet50.features (.layer torchvision_resnet50.fc) from rfl,
    show (shape (Net.seq torchvision_resnet50.features (.layer torchvision_resnet50.fc))
        (TShape.t4 batch 3 h w)) =
      (shape torchvision_resnet50.features (.t4 batch 3 h w)).bind
        (shape (.layer torchvision_resnet50.fc)) from rfl] at hr
  obtain ⟨m, hm, hfc⟩ := Option.bind_eq_some.mp hr
  -- the feature pipeline ends in flatten, so its output is 2-d
  obtain ⟨u, hu, hfl⟩ := Option.bind_eq_some.mp
    (show (shape (resnet50_features_bulk) (.t4 batch 3 h w)).bind
        (shape (.layer SLayer.flatten)) = some m from hm)
  obtain ⟨bm, fm, hm2⟩ : ∃ bm fm, m = TShape.t2 bm fm := by
    cases u <;> simp [shape, applySLayer] at hfl <;> exact ⟨_, _, hfl.symm⟩
  subst hm2
  -- the original classifier accepts it, so it has 512*4 features
  have hfm : fm = 512 * 4 := by
    simp only [shape, torchvision_resnet50, applySLayer,
      Option.ite_none_right_eq_some] at hfc
    exact hfc.1
  -- and the batch dimension is the input's
  have hbm : bm = batch :=
    shape_batch torchvision_resnet50.features _ _ hm
  rw [hfm, hbm] at hm
  show (shape torchvision_resnet50.features (.t4 batch 3 h w)).bind
      (shape (.layer (SLayer.linear torchvision_resnet50.fc.in_features num_classes)))
    = some (.t2 batch num_classes)
  rw [hm]
  simp [shape, torchvision_resnet50, applySLayer, SLayer.in_features]

/-- Concrete instantiation of the `sn_Resnet50` theorem: a 3x224x224
ImageNet-sized input is accepted by the backbone and the wrapped model
maps it to a 10-class output. -/
theorem sn_Resnet50_spec_witness :
    (shape resnet50_backboneNet (.t4 1 3 224 224)).isSome = true ∧
    shape (sn_Resnet50_forwardNet (sn_Resnet50_init 10)) (.t4 1 3 224 224) =
      some (.t2 1 10) :=
  ⟨by decide, (sn_Resnet50_spec 10 1 224 224 (by decide)).2.2⟩

end SNTop
